import Mathlib

/-!
Shallow embedding of `trezor_agent/gpg/__main__.py`: the GPG identity
creation workflow (`run_create`, `key_exists`) and the gpg-agent connection
loop (`run_agent`).  External collaborators (the `keyring`, `decode`,
`encode`, `device`, `agent` and `server` modules) are opaque: they appear as
fields of an environment record, and the embedding records the sequence of
calls `run_create` makes into them as an explicit event trace.
-/

namespace TrezorGpg

/-- Opaque byte strings exchanged with the external collaborators. -/
abbrev Bytes := List Nat

/-- A propagating Python exception, identified by its message. -/
abbrev Err := String

/-- One tagged record yielded by `decode.parse_packets` (a GPG packet,
projected to the two fields `key_exists` reads: `p['type']` and `p['value']`). -/
structure Packet where
  type : String
  value : String
deriving DecidableEq, Repr

/-- Mirror of `protocol.PublicKey(curve_name=..., created=..., verifying_key=..., ecdh=...)`:
the descriptor `run_create` builds for each minted key. -/
structure PublicKey where
  curve_name : String
  created : Nat
  verifying_key : Bytes
  ecdh : Bool

/-- The opaque external collaborators of `run_create`, as one record:
the hardware signer (`device.HardwareSigner`: `pubkey`, `sign`), the keyring
(`export_public_keys`, `export_public_key`), the decoder (`parse_packets`),
the curve table (`formats.get_ecdh_curve_name`) and the encoder
(`encode.create_primary`, `encode.create_subkey`).  Fallible collaborators
return `Except Err`; the others are total functions. -/
structure Env where
  pubkey : Bool → Bytes
  sign : Bytes → Bytes
  export_public_keys : Except Err Bytes
  parse_packets : Bytes → Except Err (List Packet)
  export_public_key : String → Bytes
  get_ecdh_curve_name : String → String
  create_primary : String → PublicKey → (Bytes → Bytes) → Bytes
  create_subkey : Bytes → PublicKey → (Bytes → Bytes) → Bytes

/-- The `for p in parse_packets(...)` loop body of `key_exists`: return `True`
on the first packet with `p['type'] == 'user_id' and p['value'] == user_id`,
`False` once the sequence is exhausted. -/
def scan_packets (user_id : String) : List Packet → Bool
  | [] => false
  | p :: ps =>
      if p.type == "user_id" && p.value == user_id then true
      else scan_packets user_id ps

/-- Mirror of `key_exists(user_id)`: export the public keys, parse them and
scan for a matching `user_id` packet.  There is no `try`/`except` in the
source, so a failure of the export or of the decode propagates unchanged. -/
def key_exists (env : Env) (user_id : String) : Except Err Bool :=
  match env.export_public_keys with
  | .error e => .error e
  | .ok bs =>
      match env.parse_packets bs with
      | .error e => .error e
      | .ok ps => .ok (scan_packets user_id ps)

/-- One call `run_create` makes into an external collaborator, in program
order: a `conn.pubkey(ecdh=...)` request, the `key_exists` lookup, a
`keyring.export_public_key` fetch, or an `encode.create_primary` /
`encode.create_subkey` invocation (recording the exact arguments passed,
including the signer callback). -/
inductive Event where
  | pubkeyReq (ecdh : Bool)
  | lookup (user_id : String)
  | exportOne (user_id : String)
  | createPrimary (user_id : String) (key : PublicKey) (signer : Bytes → Bytes)
  | createSubkey (container : Bytes) (key : PublicKey) (signer : Bytes → Bytes)

/-- True exactly on `create_primary` events. -/
def isCreatePrimaryE : Event → Bool
  | .createPrimary _ _ _ => true
  | _ => false

/-- True exactly on `create_subkey` events. -/
def isCreateSubkeyE : Event → Bool
  | .createSubkey _ _ _ => true
  | _ => false

/-- True exactly on the `key_exists` lookup event for the given label. -/
def isLookupE (user_id : String) : Event → Bool
  | .lookup u => u == user_id
  | _ => false

/-- Mirror of `run_create(args)`, with `args.user_id`, `args.ecdsa_curve` and
`args.time` as parameters.  Returns the trace of external calls in program
order together with the produced container (or the propagated exception).
The source first constructs the `HardwareSigner` and requests both
verification keys (`conn.pubkey(ecdh=False)`, `conn.pubkey(ecdh=True)`),
then calls `key_exists`; on an existing identity it chains two
`create_subkey` calls over the exported primary, otherwise one
`create_primary` followed by one `create_subkey`, every call signed by
`conn.sign`. -/
def run_create (env : Env) (user_id : String) (ecdsa_curve : String)
    (time : Nat) : List Event × Except Err Bytes :=
  let verifying_key := env.pubkey false
  let decryption_key := env.pubkey true
  let pre : List Event := [.pubkeyReq false, .pubkeyReq true, .lookup user_id]
  match key_exists env user_id with
  | .error e => (pre, .error e)
  | .ok true =>
      let signing_key : PublicKey :=
        { curve_name := ecdsa_curve, created := time,
          verifying_key := verifying_key, ecdh := false }
      let encryption_key : PublicKey :=
        { curve_name := env.get_ecdh_curve_name ecdsa_curve, created := time,
          verifying_key := decryption_key, ecdh := true }
      let primary_bytes := env.export_public_key user_id
      let result1 := env.create_subkey primary_bytes signing_key env.sign
      let result2 := env.create_subkey result1 encryption_key env.sign
      (pre ++ [.exportOne user_id,
               .createSubkey primary_bytes signing_key env.sign,
               .createSubkey result1 encryption_key env.sign],
       .ok result2)
  | .ok false =>
      let primary : PublicKey :=
        { curve_name := ecdsa_curve, created := time,
          verifying_key := verifying_key, ecdh := false }
      let subkey : PublicKey :=
        { curve_name := env.get_ecdh_curve_name ecdsa_curve, created := time,
          verifying_key := decryption_key, ecdh := true }
      let result1 := env.create_primary user_id primary env.sign
      let result2 := env.create_subkey result1 subkey env.sign
      (pre ++ [.createPrimary user_id primary env.sign,
               .createSubkey result1 subkey env.sign],
       .ok result2)

/-- Mirror of `main`'s `--time` argument: `add_argument('-t', '--time',
type=int, default=int(time.time()))` resolves to the caller-supplied value
when one is given and to the current clock only as a default. -/
def resolve_time (timeArg : Option Nat) (now : Nat) : Nat :=
  timeArg.getD now

/-- Modelled from the spec: the encoder operations (`encode.create_primary`
and `encode.create_subkey`, external collaborators whose code is not part of
this slice) each produce a container that is a strict extension of their
input — in particular a non-empty byte sequence. -/
def EncoderNonEmpty (env : Env) : Prop :=
  (∀ u k s, env.create_primary u k s ≠ ([] : Bytes)) ∧
  (∀ c k s, env.create_subkey c k s ≠ ([] : Bytes))

/-- The key descriptor carried by an encoder event has its curve derived from
the requested signing curve by `g` whenever it is a key-agreement
(`ecdh = true`) descriptor. -/
def ecdhDerived (g : String → String) (ecdsa_curve : String) : Event → Prop
  | .createPrimary _ k _ => k.ecdh = true → k.curve_name = g ecdsa_curve
  | .createSubkey _ k _ => k.ecdh = true → k.curve_name = g ecdsa_curve
  | _ => True

/-- Outcome of one `agent.handle_connection(conn)` call: normal return,
an exception of Python's `Exception` class (caught by the loop's
`except Exception`), or an exception outside that class such as
`KeyboardInterrupt` or `SystemExit` (not caught). -/
inductive HandlerOutcome where
  | ok
  | exn
  | fatal
deriving DecidableEq, Repr

/-- Observable step of the connection loop of `run_agent`, indexed by the
position of the connection in the accepted sequence: the `yield_connections`
accept, the `handle_connection` call, the `log.exception` call of the
`except Exception` arm, and the `conn.close()` performed by
`contextlib.closing` on exit of the `with` block. -/
inductive AgentEvent where
  | accept (i : Nat)
  | handle (i : Nat)
  | logError (i : Nat)
  | close (i : Nat)
deriving DecidableEq, Repr

/-- True exactly on `accept` events. -/
def isAcceptE : AgentEvent → Bool
  | .accept _ => true
  | _ => false

/-- The connection index an agent event refers to. -/
def AgentEvent.idx : AgentEvent → Nat
  | .accept i => i
  | .handle i => i
  | .logError i => i
  | .close i => i

/-- Mirror of the `for conn in agent.yield_connections(sock)` loop of
`run_agent`, started at connection index `s` and fed the finite prefix
`outcomes` of handler outcomes.  Each iteration runs
`with contextlib.closing(conn): try: handle_connection(conn)
except Exception: log.exception(...)`, so a normal return yields
accept/handle/close, a caught exception yields accept/handle/log/close
(the `except` arm runs inside the `with`, before the close), and an
uncaught exception yields accept/handle/close and then propagates,
terminating the loop.  Returns the event trace and whether the loop is
still alive (back at the accept point) afterwards. -/
def run_agent_from (s : Nat) : List HandlerOutcome → List AgentEvent × Bool
  | [] => ([], true)
  | o :: rest =>
      match o with
      | .ok =>
          let t := run_agent_from (s + 1) rest
          (.accept s :: .handle s :: .close s :: t.1, t.2)
      | .exn =>
          let t := run_agent_from (s + 1) rest
          (.accept s :: .handle s :: .logError s :: .close s :: t.1, t.2)
      | .fatal => ([.accept s, .handle s, .close s], false)

/-- The connection loop of `run_agent`, from the first accepted connection. -/
def run_agent (outcomes : List HandlerOutcome) : List AgentEvent × Bool :=
  run_agent_from 0 outcomes

/-- The events that delimit connection `i`'s handling window: its
`handle_connection` call, its `conn.close()`, and the accept of the next
connection. -/
def lifecycleP (i : Nat) : AgentEvent → Bool
  | .handle j => j == i
  | .close j => j == i
  | .accept j => j == i + 1
  | .logError _ => false

/-- A sample environment whose keyring contains a `user_id` packet for
`"alice"`, used to instantiate the lookup theorems. -/
def lookupEnv : Env where
  pubkey := fun e => if e then [2] else [1]
  sign := fun bs => 0 :: bs
  export_public_keys := .ok [10]
  parse_packets := fun _ =>
    .ok [{ type := "signature", value := "s" },
         { type := "user_id", value := "alice" },
         { type := "user_id", value := "carol" }]
  export_public_key := fun _ => [7]
  get_ecdh_curve_name := fun c => c ++ "h"
  create_primary := fun _ _ s => 1 :: s [1]
  create_subkey := fun c _ s => 2 :: c ++ s c

/-- A sample environment whose keyring export fails, used to instantiate the
failure-propagation theorems. -/
def failEnv : Env :=
  { lookupEnv with export_public_keys := .error "export failed" }

/-- A sample environment whose keyring parses to no packets (no existing
identity), used to instantiate the new-mode theorems. -/
def emptyEnv : Env :=
  { lookupEnv with parse_packets := fun _ => .ok [] }

lemma scan_packets_eq_true_iff (user_id : String) (ps : List Packet) :
    scan_packets user_id ps = true ↔
      ∃ p ∈ ps, p.type = "user_id" ∧ p.value = user_id := by
  induction ps with
  | nil => simp [scan_packets]
  | cons p ps ih =>
      simp only [scan_packets]
      by_cases hp : (p.type == "user_id" && p.value == user_id) = true
      · rw [if_pos hp]
        simp only [Bool.and_eq_true, beq_iff_eq] at hp
        constructor
        · intro _; exact ⟨p, List.mem_cons_self p ps, hp⟩
        · intro _; rfl
      · rw [if_neg hp]
        simp only [Bool.and_eq_true, beq_iff_eq] at hp
        rw [ih]
        constructor
        · rintro ⟨q, hq, hq2⟩; exact ⟨q, List.mem_cons_of_mem _ hq, hq2⟩
        · rintro ⟨q, hq, hq2⟩
          rcases List.mem_cons.mp hq with h | h
          · subst h; exact absurd ⟨hq2.1, hq2.2⟩ hp
          · exact ⟨q, h, hq2⟩

/-- C6: `key_exists` returns true iff the decoded record sequence contains a
`user_id`-tagged record whose value equals the requested label exactly; it
answers at the first such record (the result is independent of everything
after a match), and returns false when the sequence is exhausted without a
match. -/
theorem key_exists_correct (env : Env) (user_id : String) (bs : Bytes)
    (ps : List Packet) (hexp : env.export_public_keys = .ok bs)
    (hparse : env.parse_packets bs = .ok ps) :
    (key_exists env user_id = .ok (scan_packets user_id ps)) ∧
    (key_exists env user_id = .ok true ↔
      ∃ p ∈ ps, p.type = "user_id" ∧ p.value = user_id) ∧
    ((¬ ∃ p ∈ ps, p.type = "user_id" ∧ p.value = user_id) →
      key_exists env user_id = .ok false) ∧
    (∀ pre p post post', p.type = "user_id" → p.value = user_id →
      scan_packets user_id (pre ++ p :: post) = true ∧
      scan_packets user_id (pre ++ p :: post) =
        scan_packets user_id (pre ++ p :: post')) := by
  have hk : key_exists env user_id = .ok (scan_packets user_id ps) := by
    simp [key_exists, hexp, hparse]
  refine ⟨hk, ?_, ?_, ?_⟩
  · rw [hk]
    simp only [Except.ok.injEq]
    exact scan_packets_eq_true_iff user_id ps
  · intro hno
    rw [hk, ← scan_packets_eq_true_iff user_id ps] at *
    cases h : scan_packets user_id ps
    · rfl
    · exact absurd h hno
  · intro pre p post post' ht hv
    have key : ∀ post'' : List Packet,
        scan_packets user_id (pre ++ p :: post'') = true := by
      intro post''
      induction pre with
      | nil => simp [scan_packets, ht, hv]
      | cons q qs ih =>
          by_cases hq : q.type == "user_id" && q.value == user_id
          · simp [scan_packets, hq]
          · simpa [scan_packets, hq] using ih
    exact ⟨key post, by rw [key post, key post']⟩

/-- C6 witness: on the sample keyring containing a `user_id` record for
`"alice"`, the lookup matches the scan of the decoded packets. -/
theorem key_exists_correct_witness :
    key_exists lookupEnv "alice" =
      .ok (scan_packets "alice"
        [{ type := "signature", value := "s" },
         { type := "user_id", value := "alice" },
         { type := "user_id", value := "carol" }]) :=
  (key_exists_correct lookupEnv "alice" [10] _ rfl rfl).1

/-- C7: a failure of the export service or of the decode propagates out of
`key_exists` as the error itself — never as a `false` answer — and aborts the
whole `run_create` request with that error, the lookup having been attempted
exactly once (no retry). -/
theorem lookup_failure_aborts (env : Env) (user_id ecdsa_curve : String)
    (time : Nat) (e : Err) :
    (env.export_public_keys = .error e → key_exists env user_id = .error e) ∧
    (∀ bs, env.export_public_keys = .ok bs → env.parse_packets bs = .error e →
      key_exists env user_id = .error e) ∧
    (key_exists env user_id = .error e →
      (run_create env user_id ecdsa_curve time).2 = .error e ∧
      ((run_create env user_id ecdsa_curve time).1.countP
        (isLookupE user_id)) = 1) := by
  refine ⟨?_, ?_, ?_⟩
  · intro h; simp [key_exists, h]
  · intro bs h1 h2; simp [key_exists, h1, h2]
  · intro h
    simp [run_create, h, isLookupE, List.countP_cons]

/-- C7 witness: on the sample environment with a failing export, the lookup
surfaces the export error rather than `false`. -/
theorem lookup_failure_aborts_witness :
    key_exists failEnv "alice" = .error "export failed" :=
  (lookup_failure_aborts failEnv "alice" "nist256p1" 1000000000
    "export failed").1 rfl

/-- C1: when the owner label already exists, `run_create` performs no
`create_primary` call and exactly two `create_subkey` calls in order — the
signing-role subkey (requested curve, `ecdh = false`) first, then the
key-agreement subkey (`ecdh = true`) — the second call consuming the first
call's output container, and the final container is the second call's
output; the starting container is the exported existing primary, which is
never overwritten. -/
theorem extend_mode_calls (env : Env) (user_id ecdsa_curve : String)
    (time : Nat) (h : key_exists env user_id = .ok true) :
    ((run_create env user_id ecdsa_curve time).1.countP isCreatePrimaryE = 0) ∧
    ((run_create env user_id ecdsa_curve time).1.filter isCreateSubkeyE =
      [Event.createSubkey (env.export_public_key user_id)
         ⟨ecdsa_curve, time, env.pubkey false, false⟩ env.sign,
       Event.createSubkey
         (env.create_subkey (env.export_public_key user_id)
           ⟨ecdsa_curve, time, env.pubkey false, false⟩ env.sign)
         ⟨env.get_ecdh_curve_name ecdsa_curve, time, env.pubkey true, true⟩
         env.sign]) ∧
    ((run_create env user_id ecdsa_curve time).2 =
      .ok (env.create_subkey
        (env.create_subkey (env.export_public_key user_id)
          ⟨ecdsa_curve, time, env.pubkey false, false⟩ env.sign)
        ⟨env.get_ecdh_curve_name ecdsa_curve, time, env.pubkey true, true⟩
        env.sign)) := by
  refine ⟨?_, ?_, ?_⟩ <;>
    simp [run_create, h, isCreatePrimaryE, isCreateSubkeyE, List.countP_cons]

/-- C1 witness: on the sample keyring that already holds `"alice"`, the
extend path performs no `create_primary` call. -/
theorem extend_mode_calls_witness :
    (run_create lookupEnv "alice" "nist256p1" 1000000000).1.countP
      isCreatePrimaryE = 0 :=
  (extend_mode_calls lookupEnv "alice" "nist256p1" 1000000000
    (by simp [key_exists, lookupEnv, scan_packets])).1

/-- C2: when the owner label does not exist, `run_create` performs exactly
one `create_primary` call (signing-role descriptor on the requested curve,
carrying the owner label and the caller-supplied timestamp) followed by
exactly one `create_subkey` call (key-agreement descriptor), the subkey call
consuming the primary call's output container, both passing the same
`conn.sign` callback; and, the encoder producing non-empty containers, the
returned container is non-empty. -/
theorem new_mode_calls (env : Env) (user_id ecdsa_curve : String)
    (time : Nat) (h : key_exists env user_id = .ok false) :
    ((run_create env user_id ecdsa_curve time).1.filter
        (fun e => isCreatePrimaryE e || isCreateSubkeyE e) =
      [Event.createPrimary user_id
         ⟨ecdsa_curve, time, env.pubkey false, false⟩ env.sign,
       Event.createSubkey
         (env.create_primary user_id
           ⟨ecdsa_curve, time, env.pubkey false, false⟩ env.sign)
         ⟨env.get_ecdh_curve_name ecdsa_curve, time, env.pubkey true, true⟩
         env.sign]) ∧
    ((run_create env user_id ecdsa_curve time).2 =
      .ok (env.create_subkey
        (env.create_primary user_id
          ⟨ecdsa_curve, time, env.pubkey false, false⟩ env.sign)
        ⟨env.get_ecdh_curve_name ecdsa_curve, time, env.pubkey true, true⟩
        env.sign)) ∧
    (EncoderNonEmpty env →
      ∀ r, (run_create env user_id ecdsa_curve time).2 = .ok r →
        r ≠ ([] : Bytes)) := by
  refine ⟨?_, ?_, ?_⟩
  · simp [run_create, h, isCreatePrimaryE, isCreateSubkeyE]
  · simp [run_create, h]
  · intro henc r hr
    simp [run_create, h] at hr
    rw [← hr]
    exact henc.2 _ _ _

/-- C2 witness: the end-to-end scenario — owner `"alice@example.com"`,
curve `"nist256p1"`, timestamp 1000000000, no existing identity — yields a
non-empty container. -/
theorem new_mode_calls_witness :
    (emptyEnv.create_subkey
      (emptyEnv.create_primary "alice@example.com"
        ⟨"nist256p1", 1000000000, emptyEnv.pubkey false, false⟩
        emptyEnv.sign)
      ⟨emptyEnv.get_ecdh_curve_name "nist256p1", 1000000000,
        emptyEnv.pubkey true, true⟩ emptyEnv.sign) ≠ ([] : Bytes) :=
  (new_mode_calls emptyEnv "alice@example.com" "nist256p1" 1000000000
      rfl).2.2
    ⟨fun _ _ _ => by simp [emptyEnv, lookupEnv],
     fun _ _ _ => by simp [emptyEnv, lookupEnv]⟩
    _
    (new_mode_calls emptyEnv "alice@example.com" "nist256p1" 1000000000
      rfl).2.1

/-- C5 counterexample: on an environment whose keyring export fails, the
lookup fails, yet both verification-key requests to the signer were already
made — they precede the lookup in the trace — refuting the claim that the
lookup decision completes before any signer request. -/
theorem lookup_first_counterexample :
    key_exists failEnv "alice" = .error "export failed" ∧
    (run_create failEnv "alice" "nist256p1" 1000000000).1 =
      [Event.pubkeyReq false, Event.pubkeyReq true, Event.lookup "alice"] ∧
    Event.pubkeyReq false ∈
      (run_create failEnv "alice" "nist256p1" 1000000000).1 :=
  ⟨rfl, rfl, List.Mem.head _⟩

/-- C5 amended: `run_create` requests both verification keys from the signer
before the Identity Lookup — the trace always starts with the two
`pubkeyReq` events followed by the lookup — and, when the lookup fails, the
build aborts with the lookup error after exactly those two signer
requests. -/
theorem pubkeys_requested_before_lookup (env : Env)
    (user_id ecdsa_curve : String) (time : Nat) :
    ((run_create env user_id ecdsa_curve time).1.take 3 =
      [Event.pubkeyReq false, Event.pubkeyReq true, Event.lookup user_id]) ∧
    (∀ e, key_exists env user_id = .error e →
      run_create env user_id ecdsa_curve time =
        ([Event.pubkeyReq false, Event.pubkeyReq true, Event.lookup user_id],
         .error e)) := by
  constructor
  · rcases hk : key_exists env user_id with e | b
    · simp [run_create, hk]
    · cases b <;> simp [run_create, hk]
  · intro e he
    simp [run_create, he]

/-- C5 amended witness: on the failing-export environment the build aborts
with the export error, after the two signer requests. -/
theorem pubkeys_requested_before_lookup_witness :
    run_create failEnv "alice" "nist256p1" 1000000000 =
      ([Event.pubkeyReq false, Event.pubkeyReq true, Event.lookup "alice"],
       .error "export failed") :=
  (pubkeys_requested_before_lookup failEnv "alice" "nist256p1"
    1000000000).2 "export failed" rfl

/-- C8: in both modes, every key-agreement (`ecdh = true`) descriptor passed
to the encoder carries the curve obtained by applying
`get_ecdh_curve_name` to the requested signing curve — never an
independently supplied curve. -/
theorem companion_curve_derived (env : Env) (user_id ecdsa_curve : String)
    (time : Nat) :
    ∀ e ∈ (run_create env user_id ecdsa_curve time).1,
      ecdhDerived env.get_ecdh_curve_name ecdsa_curve e := by
  intro e he
  rcases hk : key_exists env user_id with er | b
  · simp [run_create, hk] at he
    rcases he with h | h | h <;> subst h <;> simp [ecdhDerived]
  · cases b
    · simp [run_create, hk] at he
      rcases he with h | h | h | h | h <;> subst h <;> simp [ecdhDerived]
    · simp [run_create, hk] at he
      rcases he with h | h | h | h | h | h <;> subst h <;>
        simp [ecdhDerived]

/-- C8 witness: in the end-to-end scenario the key-agreement subkey event
appearing in the trace satisfies the derived-curve predicate. -/
theorem companion_curve_derived_witness :
    ecdhDerived emptyEnv.get_ecdh_curve_name "nist256p1"
      (Event.createSubkey
        (emptyEnv.create_primary "alice"
          ⟨"nist256p1", 1000000000, emptyEnv.pubkey false, false⟩
          emptyEnv.sign)
        ⟨emptyEnv.get_ecdh_curve_name "nist256p1", 1000000000,
          emptyEnv.pubkey true, true⟩ emptyEnv.sign) :=
  companion_curve_derived emptyEnv "alice" "nist256p1" 1000000000 _
    (List.Mem.tail _ (List.Mem.tail _ (List.Mem.tail _
      (List.Mem.tail _ (List.Mem.head _)))))

/-- C9: `run_create` is deterministic in its collaborators' extensional
behaviour — two environments whose device, keyring, decoder, curve table and
encoder agree pointwise produce identical traces and containers for the same
`(user_id, ecdsa_curve, time)` — and the timestamp is caller-supplied, the
clock being used only as the default when no `--time` is given. -/
theorem build_deterministic (env1 env2 : Env) (user_id ecdsa_curve : String)
    (time : Nat)
    (hpk : ∀ b, env1.pubkey b = env2.pubkey b)
    (hsg : ∀ bs, env1.sign bs = env2.sign bs)
    (hex : env1.export_public_keys = env2.export_public_keys)
    (hpa : ∀ bs, env1.parse_packets bs = env2.parse_packets bs)
    (he1 : ∀ u, env1.export_public_key u = env2.export_public_key u)
    (hgc : ∀ c, env1.get_ecdh_curve_name c = env2.get_ecdh_curve_name c)
    (hcp : ∀ u k s, env1.create_primary u k s = env2.create_primary u k s)
    (hcs : ∀ c k s, env1.create_subkey c k s = env2.create_subkey c k s) :
    run_create env1 user_id ecdsa_curve time =
      run_create env2 user_id ecdsa_curve time ∧
    (∀ t now, resolve_time (some t) now = t) ∧
    (∀ now, resolve_time none now = now) := by
  refine ⟨?_, fun t now => rfl, fun now => rfl⟩
  have h1 : env1.pubkey = env2.pubkey := funext hpk
  have h2 : env1.sign = env2.sign := funext hsg
  have h4 : env1.parse_packets = env2.parse_packets := funext hpa
  have h5 : env1.export_public_key = env2.export_public_key := funext he1
  have h6 : env1.get_ecdh_curve_name = env2.get_ecdh_curve_name := funext hgc
  have h7 : env1.create_primary = env2.create_primary :=
    funext fun u => funext fun k => funext fun s => hcp u k s
  have h8 : env1.create_subkey = env2.create_subkey :=
    funext fun c => funext fun k => funext fun s => hcs c k s
  have henv : env1 = env2 := by
    cases env1
    cases env2
    simp only at h1 h2 hex h4 h5 h6 h7 h8
    subst h1 h2 hex h4 h5 h6 h7 h8
    rfl
  rw [henv]

/-- C9 witness: two definitionally different but pointwise-equal
environments yield the same `run_create` result on the end-to-end inputs. -/
theorem build_deterministic_witness :
    run_create lookupEnv "alice@example.com" "nist256p1" 1000000000 =
      run_create { lookupEnv with pubkey := fun e => cond e [2] [1] }
        "alice@example.com" "nist256p1" 1000000000 :=
  (build_deterministic lookupEnv
      { lookupEnv with pubkey := fun e => cond e [2] [1] }
      "alice@example.com" "nist256p1" 1000000000
      (fun b => by cases b <;> rfl)
      (fun _ => rfl) rfl (fun _ => rfl) (fun _ => rfl) (fun _ => rfl)
      (fun _ _ _ => rfl) (fun _ _ _ => rfl)).1

lemma run_agent_from_alive (os : List HandlerOutcome) :
    (∀ o ∈ os, o ≠ .fatal) → ∀ s, (run_agent_from s os).2 = true := by
  induction os with
  | nil => intro _ s; rfl
  | cons o rest ih =>
      intro h s
      have ho : o ≠ HandlerOutcome.fatal := h o (List.mem_cons_self o rest)
      have hr := fun x hx => h x (List.mem_cons_of_mem o hx)
      cases o with
      | ok => simpa [run_agent_from] using ih hr (s + 1)
      | exn => simpa [run_agent_from] using ih hr (s + 1)
      | fatal => exact absurd rfl ho

lemma run_agent_from_append (pre post : List HandlerOutcome) :
    (∀ o ∈ pre, o ≠ .fatal) → ∀ s,
      run_agent_from s (pre ++ post) =
        ((run_agent_from s pre).1 ++
           (run_agent_from (s + pre.length) post).1,
         (run_agent_from (s + pre.length) post).2) := by
  induction pre with
  | nil => intro _ s; simp [run_agent_from]
  | cons o rest ih =>
      intro h s
      have ho : o ≠ HandlerOutcome.fatal := h o (List.mem_cons_self o rest)
      have hr := fun x hx => h x (List.mem_cons_of_mem o hx)
      have harith : s + 1 + rest.length = s + (rest.length + 1) := by omega
      cases o with
      | ok =>
          have ht := ih hr (s + 1)
          simp [run_agent_from, ht, harith]
      | exn =>
          have ht := ih hr (s + 1)
          simp [run_agent_from, ht, harith]
      | fatal => exact absurd rfl ho

lemma filter_accept_of_no_fatal (os : List HandlerOutcome) :
    (∀ o ∈ os, o ≠ .fatal) → ∀ s,
      (run_agent_from s os).1.filter isAcceptE =
        (List.range' s os.length).map AgentEvent.accept := by
  induction os with
  | nil => intro _ s; simp [run_agent_from]
  | cons o rest ih =>
      intro h s
      have ho : o ≠ HandlerOutcome.fatal := h o (List.mem_cons_self o rest)
      have hr := fun x hx => h x (List.mem_cons_of_mem o hx)
      cases o with
      | ok =>
          simp [run_agent_from, List.filter_cons, isAcceptE, ih hr (s + 1),
            List.range'_succ]
      | exn =>
          simp [run_agent_from, List.filter_cons, isAcceptE, ih hr (s + 1),
            List.range'_succ]
      | fatal => exact absurd rfl ho

lemma logError_mem_of_exn (os : List HandlerOutcome) :
    ∀ s i, os[i]? = some .exn → (∀ o ∈ os.take i, o ≠ .fatal) →
      AgentEvent.logError (s + i) ∈ (run_agent_from s os).1 := by
  induction os with
  | nil => intro s i h _; simp at h
  | cons o rest ih =>
      intro s i h hpre
      cases i with
      | zero =>
          simp only [List.getElem?_cons_zero, Option.some.injEq] at h
          subst h
          simp [run_agent_from]
      | succ i =>
          simp only [List.getElem?_cons_succ] at h
          have ho : o ≠ HandlerOutcome.fatal := by
            apply hpre o
            simp [List.take_succ_cons]
          have hr : ∀ x ∈ rest.take i, x ≠ HandlerOutcome.fatal := by
            intro x hx
            apply hpre x
            simp [List.take_succ_cons, hx]
          have hmem := ih (s + 1) i h hr
          have harith : s + 1 + i = s + (i + 1) := by omega
          rw [harith] at hmem
          cases o with
          | ok =>
              simp only [run_agent_from, List.mem_cons]
              exact Or.inr (Or.inr (Or.inr hmem))
          | exn =>
              simp only [run_agent_from, List.mem_cons]
              exact Or.inr (Or.inr (Or.inr (Or.inr hmem)))
          | fatal => exact absurd rfl ho

lemma filter_lifecycle_lt (os : List HandlerOutcome) :
    ∀ s j, j < s →
      (run_agent_from s os).1.filter (lifecycleP j) =
        if j + 1 = s ∧ os ≠ [] then [AgentEvent.accept (j + 1)] else [] := by
  induction os with
  | nil => intro s j _; simp [run_agent_from]
  | cons o rest ih =>
      intro s j hj
      have htail := ih (s + 1) j (Nat.lt_succ_of_lt hj)
      have hne : ¬(j + 1 = s + 1 ∧ rest ≠ []) := by
        rintro ⟨h1, _⟩; omega
      rw [if_neg hne] at htail
      have hh : lifecycleP j (AgentEvent.handle s) = false := by
        simp only [lifecycleP, beq_eq_false_iff_ne, ne_eq]
        omega
      have hc : lifecycleP j (AgentEvent.close s) = false := by
        simp only [lifecycleP, beq_eq_false_iff_ne, ne_eq]
        omega
      have hlg : lifecycleP j (AgentEvent.logError s) = false := rfl
      by_cases hq : j + 1 = s
      · have ha : lifecycleP j (AgentEvent.accept s) = true := by
          simp [lifecycleP, hq]
        cases o with
        | ok =>
            simp [run_agent_from, List.filter_cons, hh, hc, ha, htail, hq]
        | exn =>
            simp [run_agent_from, List.filter_cons, hh, hc, ha, hlg, htail,
              hq]
        | fatal =>
            simp [run_agent_from, List.filter_cons, hh, hc, ha, hq]
      · have ha : lifecycleP j (AgentEvent.accept s) = false := by
          simp only [lifecycleP, beq_eq_false_iff_ne, ne_eq]
          omega
        cases o with
        | ok =>
            simp [run_agent_from, List.filter_cons, hh, hc, ha, htail, hq]
        | exn =>
            simp [run_agent_from, List.filter_cons, hh, hc, ha, hlg, htail,
              hq]
        | fatal =>
            simp [run_agent_from, List.filter_cons, hh, hc, ha, hq]

lemma filter_lifecycle_main (os : List HandlerOutcome) :
    ∀ s i, i < os.length → (∀ o ∈ os.take i, o ≠ .fatal) →
      (run_agent_from s os).1.filter (lifecycleP (s + i)) =
        AgentEvent.handle (s + i) :: AgentEvent.close (s + i) ::
          (if os[i]? ≠ some HandlerOutcome.fatal ∧ i + 1 < os.length
           then [AgentEvent.accept (s + i + 1)] else []) := by
  induction os with
  | nil => intro s i hi _; simp at hi
  | cons o rest ih =>
      intro s i hi hpre
      cases i with
      | zero =>
          have hh : lifecycleP s (AgentEvent.handle s) = true := by
            simp [lifecycleP]
          have hc : lifecycleP s (AgentEvent.close s) = true := by
            simp [lifecycleP]
          have ha : lifecycleP s (AgentEvent.accept s) = false := by
            simp only [lifecycleP, beq_eq_false_iff_ne, ne_eq]
            omega
          have hl : lifecycleP s (AgentEvent.logError s) = false := rfl
          have htail := filter_lifecycle_lt rest (s + 1) s (Nat.lt_succ_self s)
          by_cases hrest : rest = []
          · subst hrest
            rw [if_neg (by simp)] at htail
            cases o with
            | ok =>
                simp [run_agent_from, List.filter_cons, hh, hc, ha, htail]
            | exn =>
                simp [run_agent_from, List.filter_cons, hh, hc, ha, hl, htail]
            | fatal =>
                simp [run_agent_from, List.filter_cons, hh, hc, ha]
          · rw [if_pos ⟨rfl, hrest⟩] at htail
            have hpos : 0 < rest.length := List.length_pos.mpr hrest
            cases o with
            | ok =>
                simp [run_agent_from, List.filter_cons, hh, hc, ha, htail,
                  hpos]
            | exn =>
                simp [run_agent_from, List.filter_cons, hh, hc, ha, hl, htail,
                  hpos]
            | fatal =>
                simp [run_agent_from, List.filter_cons, hh, hc, ha]
      | succ i =>
          have ho : o ≠ HandlerOutcome.fatal := by
            apply hpre o
            simp [List.take_succ_cons]
          have hr : ∀ x ∈ rest.take i, x ≠ HandlerOutcome.fatal := by
            intro x hx
            apply hpre x
            simp [List.take_succ_cons, hx]
          have hi' : i < rest.length := by
            simpa [List.length_cons] using hi
          have hmain := ih (s + 1) i hi' hr
          have harith : s + 1 + i = s + (i + 1) := by omega
          rw [harith] at hmain
          have hh : lifecycleP (s + (i + 1)) (AgentEvent.handle s) = false := by
            simp only [lifecycleP, beq_eq_false_iff_ne, ne_eq]
            omega
          have hc : lifecycleP (s + (i + 1)) (AgentEvent.close s) = false := by
            simp only [lifecycleP, beq_eq_false_iff_ne, ne_eq]
            omega
          have ha : lifecycleP (s + (i + 1)) (AgentEvent.accept s) = false := by
            simp only [lifecycleP, beq_eq_false_iff_ne, ne_eq]
            omega
          have hl : lifecycleP (s + (i + 1)) (AgentEvent.logError s) = false :=
            rfl
          cases o with
          | ok =>
              simp [run_agent_from, List.filter_cons, hh, hc, ha, hmain,
                List.getElem?_cons_succ, List.length_cons]
          | exn =>
              simp [run_agent_from, List.filter_cons, hh, hc, ha, hl, hmain,
                List.getElem?_cons_succ, List.length_cons]
          | fatal => exact absurd rfl ho

/-- C3: when every handler failure is of the ordinary `Exception` class, the
failure is caught and logged inside the loop and does not propagate: all fed
connections are accepted in order, the loop is still at its accept point
afterwards (so a further connection is accepted as well), and every failing
connection got a `log.exception` entry. -/
theorem agent_fault_isolation (outcomes : List HandlerOutcome)
    (h : ∀ o ∈ outcomes, o ≠ .fatal) :
    ((run_agent outcomes).1.filter isAcceptE =
      (List.range outcomes.length).map AgentEvent.accept) ∧
    ((run_agent outcomes).2 = true) ∧
    (∀ o', AgentEvent.accept outcomes.length ∈
      (run_agent (outcomes ++ [o'])).1) ∧
    (∀ i, outcomes[i]? = some HandlerOutcome.exn →
      AgentEvent.logError i ∈ (run_agent outcomes).1) := by
  refine ⟨?_, ?_, ?_, ?_⟩
  · rw [run_agent, filter_accept_of_no_fatal outcomes h 0,
      List.range_eq_range']
  · exact run_agent_from_alive outcomes h 0
  · intro o'
    rw [run_agent, run_agent_from_append outcomes [o'] h 0]
    exact List.mem_append_right _ (by cases o' <;> simp [run_agent_from])
  · intro i hi
    have hm := logError_mem_of_exn outcomes 0 i hi
      (fun x hx => h x (List.take_subset i outcomes hx))
    simpa using hm

/-- C3 witness: three connections whose middle handler raises an
`Exception`-class failure are all accepted and the loop is still alive. -/
theorem agent_fault_isolation_witness :
    ((run_agent [HandlerOutcome.ok, HandlerOutcome.exn,
        HandlerOutcome.ok]).1.filter isAcceptE =
      (List.range
        [HandlerOutcome.ok, HandlerOutcome.exn, HandlerOutcome.ok].length).map
        AgentEvent.accept) ∧
    (run_agent [HandlerOutcome.ok, HandlerOutcome.exn,
      HandlerOutcome.ok]).2 = true :=
  ⟨(agent_fault_isolation _ (by decide)).1,
   (agent_fault_isolation _ (by decide)).2.1⟩

/-- C4: for every accepted connection `i`, `conn.close()` is invoked exactly
once, after the handler call finishes — whether it succeeded or failed — and
before the next accept: among the events of connection `i`'s window, the
handle comes first, then the close, and only then (if the loop continues)
the accept of connection `i + 1`. -/
theorem connection_closed_once (outcomes : List HandlerOutcome) (i : Nat)
    (hi : i < outcomes.length)
    (hpre : ∀ o ∈ outcomes.take i, o ≠ .fatal) :
    ((run_agent outcomes).1.filter (lifecycleP i) =
      AgentEvent.handle i :: AgentEvent.close i ::
        (if outcomes[i]? ≠ some HandlerOutcome.fatal ∧
            i + 1 < outcomes.length
         then [AgentEvent.accept (i + 1)] else [])) ∧
    ((run_agent outcomes).1.count (AgentEvent.close i) = 1) := by
  have hfil := filter_lifecycle_main outcomes 0 i hi hpre
  rw [Nat.zero_add] at hfil
  refine ⟨hfil, ?_⟩
  have hp : lifecycleP i (AgentEvent.close i) = true := by simp [lifecycleP]
  have hcnt : ((run_agent outcomes).1.filter (lifecycleP i)).count
      (AgentEvent.close i) =
      (run_agent outcomes).1.count (AgentEvent.close i) :=
    List.count_filter hp
  rw [← hcnt]
  simp only [run_agent]
  rw [hfil]
  by_cases hcond : outcomes[i]? ≠ some HandlerOutcome.fatal ∧
      i + 1 < outcomes.length
  · rw [if_pos hcond]
    simp [List.count_cons]
  · rw [if_neg hcond]
    simp [List.count_cons]

/-- C4 witness: with three connections whose middle handler fails, the
middle connection is closed exactly once. -/
theorem connection_closed_once_witness :
    (run_agent [HandlerOutcome.ok, HandlerOutcome.exn,
      HandlerOutcome.ok]).1.count (AgentEvent.close 1) = 1 :=
  (connection_closed_once
    [HandlerOutcome.ok, HandlerOutcome.exn, HandlerOutcome.ok] 1
    (by decide) (by decide)).2

/-- C10: the loop's `except Exception` boundary swallows only ordinary
exceptions — a handler failure outside that class (e.g. `KeyboardInterrupt`
or `SystemExit`) terminates the loop: the faulting connection is still
accepted, handled and closed (the scoped `contextlib.closing` runs before
propagation), no later connection is accepted, and the loop is no longer
alive, whereas it was alive after the non-fatal prefix alone. -/
theorem fatal_escapes_loop (pre rest : List HandlerOutcome)
    (h : ∀ o ∈ pre, o ≠ .fatal) :
    (run_agent (pre ++ HandlerOutcome.fatal :: rest) =
      ((run_agent pre).1 ++
        [AgentEvent.accept pre.length, AgentEvent.handle pre.length,
         AgentEvent.close pre.length], false)) ∧
    (run_agent pre).2 = true := by
  constructor
  · rw [run_agent, run_agent_from_append pre (HandlerOutcome.fatal :: rest)
      h 0]
    simp [run_agent_from, run_agent]
  · exact run_agent_from_alive pre h 0

/-- C10 witness: a `KeyboardInterrupt`-class failure on the second of three
connections closes that connection, drops the third, and kills the loop. -/
theorem fatal_escapes_loop_witness :
    run_agent [HandlerOutcome.ok, HandlerOutcome.fatal, HandlerOutcome.ok] =
      ((run_agent [HandlerOutcome.ok]).1 ++
        [AgentEvent.accept 1, AgentEvent.handle 1, AgentEvent.close 1],
       false) :=
  (fatal_escapes_loop [HandlerOutcome.ok] [HandlerOutcome.ok] (by decide)).1

end TrezorGpg
